import Mathlib

/-!
Verification of the ogit Git server (Labbs/ogit).

The development shallowly embeds the parts of the Go source that the
claims speak about:

* the Go `strings`/`path`/`filepath` primitives the server uses, modelled
  over `List Char` (`GoStr`);
* the S3-backed storer (`pkg/storage/s3`, file `s3.go` of the storer):
  object put/get, reference put/get, compare-and-set, config;
* repository-name normalization (`pkg/common/normalize_repo_path.go`) and
  the S3/local key mapping (`pkg/storage/...`);
* the HTTP advertisement framing (`WriteServiceAdvertisement`);
* the transport drivers: the HTTP Git controller
  (`internal/api/controller/git_controller.go`), the legacy gliderlabs
  SSH handler (`internal/server/ssh.go`) and the active custom SSH server
  (`internal/server/git_ssh_server.go`), each modelled as a pure function
  from the outcomes of its external calls (protocol engine, storage) to
  the observable response/stream/exit-code.

External collaborators (the go-git protocol engine, SHA-1, the real S3
API) are modelled abstractly: engine outcomes are parameters, the S3
bucket is a flat key/value map, and the content digest is an injective
function of (type, payload) standing for go-git's `ComputeHash`.
-/

deriving instance DecidableEq for Except

namespace OGit

/-! ## Go strings, modelled over `List Char` -/

/-- Go strings are byte strings; all inputs relevant here are ASCII, so we
model them as lists of characters. -/
abbrev GoStr := List Char

/-- Conversion from a Lean string literal to the model. -/
def gs (s : String) : GoStr := s.data

/-- The whitespace test of Go's `unicode.IsSpace`, restricted to the ASCII
range (all repository names and services in play are ASCII). -/
def isGoSpace (c : Char) : Bool :=
  c == ' ' || c == '\t' || c == '\n' || c == '\x0b' || c == '\x0c' || c == '\r'

/-- Go `strings.TrimSpace`. -/
def goTrimSpace (s : GoStr) : GoStr :=
  ((s.dropWhile isGoSpace).reverse.dropWhile isGoSpace).reverse

/-- Go `strings.HasPrefix`. -/
def goStartsWith (s pat : GoStr) : Bool := pat.isPrefixOf s

/-- Go `strings.HasSuffix`. -/
def goEndsWith (s pat : GoStr) : Bool := pat.isSuffixOf s

/-- Go `strings.TrimPrefix` (drops `pat` from the front when present). -/
def goTrimLeading (s pat : GoStr) : GoStr :=
  if goStartsWith s pat then s.drop pat.length else s

/-- Go `strings.TrimSuffix`. -/
def goTrimTrailing (s pat : GoStr) : GoStr :=
  if goEndsWith s pat then s.take (s.length - pat.length) else s

/-- Go `strings.Trim` with a cutset: removes leading and trailing characters
belonging to `cutset`. -/
def goTrimAny (s cutset : GoStr) : GoStr :=
  ((s.dropWhile (cutset.contains ·)).reverse.dropWhile (cutset.contains ·)).reverse

/-- Go `strings.Contains`: `pat` occurs as a contiguous substring of `s`. -/
def goContains : (s pat : GoStr) → Bool
  | [], pat => pat.isEmpty
  | s@(_ :: rest), pat => pat.isPrefixOf s || goContains rest pat


/-! ## Go `path.Clean` / `path.Join` (and, on Linux, `filepath.Clean`/`Join`) -/

/-- Split a string on `'/'` (the separators themselves are dropped; empty
segments are kept and later discarded by the cleaner, as in Go). -/
def splitOnSlash (s : GoStr) : List GoStr := s.splitOn '/'

/-- The element processing of Go `path.Clean`: drop empty and `.` segments,
let `..` cancel the preceding segment (except at the root of a rooted path,
where it vanishes, and at the head of an unrooted path, where it is kept). -/
def cleanSegsAux (rooted : Bool) : List GoStr → List GoStr → List GoStr
  | [], acc => acc.reverse
  | seg :: rest, acc =>
    if seg = [] ∨ seg = ['.'] then cleanSegsAux rooted rest acc
    else if seg = ['.', '.'] then
      match acc with
      | a :: tl => if a = ['.', '.'] then cleanSegsAux rooted rest (seg :: acc)
                   else cleanSegsAux rooted rest tl
      | [] => if rooted then cleanSegsAux rooted rest []
              else cleanSegsAux rooted rest [seg]
    else cleanSegsAux rooted rest (seg :: acc)

/-- Reassemble segments with `'/'`. -/
def joinSegs : List GoStr → GoStr
  | [] => []
  | [s] => s
  | s :: rest => s ++ '/' :: joinSegs rest

/-- Go `path.Clean` (equal to `filepath.Clean` on Linux for these inputs). -/
def pathClean (p : GoStr) : GoStr :=
  if p = [] then ['.']
  else
    let rooted := goStartsWith p (gs "/")
    let segs := cleanSegsAux rooted (splitOnSlash p) []
    if rooted then '/' :: joinSegs segs
    else if segs = [] then ['.']
    else joinSegs segs

/-- Go `path.Join` of two elements: empty elements are dropped, the rest are
joined with `'/'` and cleaned (`filepath.Join` behaves the same on Linux). -/
def pathJoin (a b : GoStr) : GoStr :=
  if a = [] ∧ b = [] then []
  else if a = [] then pathClean b
  else if b = [] then pathClean a
  else pathClean (a ++ '/' :: b)


/-! ## Repository-name normalization and storage key mapping

Sources: `pkg/common/normalize_repo_path.go` (`NormalizeRepoPath`),
`pkg/storage/s3/s3.go` (`S3Storage.getRepoKey`),
`pkg/storage/local/git.go` (`LocalStorage.getFullPath`). -/

/-- `common.NormalizeRepoPath`: trim whitespace, then append `.git` unless
already present. -/
def normalizeRepoPath (repoPath : GoStr) : GoStr :=
  let repoPath := goTrimSpace repoPath
  if goEndsWith repoPath (gs ".git") then repoPath else repoPath ++ gs ".git"

/-- `S3Storage.getRepoKey`: trim surrounding slashes, append `.git` unless
present, prefix with `repositories/`. -/
def getRepoKey (repoPath : GoStr) : GoStr :=
  let cleanPath := goTrimAny repoPath (gs "/")
  let cleanPath := if goEndsWith cleanPath (gs ".git") then cleanPath
                   else cleanPath ++ gs ".git"
  gs "repositories/" ++ cleanPath

/-- `LocalStorage.getFullPath`: `filepath.Clean`, append `.git` unless
present, `filepath.Join` with the base directory. -/
def getFullPath (basePath repoPath : GoStr) : GoStr :=
  let cleanPath := pathClean repoPath
  let cleanPath := if goEndsWith cleanPath (gs ".git") then cleanPath
                   else cleanPath ++ gs ".git"
  pathJoin basePath cleanPath


/-! ## The flat S3 blob store

The S3 bucket seen by one `S3Storer` is a flat map from keys to blobs; a
blob carries its content and the optional `git-type` user metadata that
`SetEncodedObject` attaches (plain `PutObject` calls attach none). -/

/-- One stored blob: body bytes plus optional `git-type` metadata. -/
structure Blob where
  content : GoStr
  gitType : Option GoStr
  deriving DecidableEq, Repr

/-- The bucket: an association map, most recent write first. -/
abbrev Store := List (GoStr × Blob)

/-- Look the key up (`GetObject`/`HeadObject` succeed iff this is `some`). -/
def Store.get (st : Store) (k : GoStr) : Option Blob :=
  match st.find? (fun p => p.1 == k) with
  | some p => some p.2
  | none => none

/-- `PutObject`: overwrite the key with the new blob. -/
def Store.put (st : Store) (k : GoStr) (v : Blob) : Store :=
  (k, v) :: st.filter (fun p => !(p.1 == k))

/-! ## The S3 storer: objects (`s3.go`: `SetEncodedObject`, `EncodedObject`)

`S3Storer.getObjectKey(objectPath)` is `path.Join(s.repoPath, objectPath)`. -/

/-- `S3Storer.getObjectKey`. -/
def getObjectKey (repoPath objectPath : GoStr) : GoStr := pathJoin repoPath objectPath

/-- The go-git object types (`plumbing.ObjectType`). -/
inductive ObjType
  | commit | tree | blob | tag | ofsDelta | refDelta
  deriving DecidableEq, Repr, Fintype

/-- `plumbing.ObjectType.String()` for the types stored here. -/
def ObjType.toGoStr : ObjType → GoStr
  | .commit => gs "commit"
  | .tree => gs "tree"
  | .blob => gs "blob"
  | .tag => gs "tag"
  | .ofsDelta => gs "ofs-delta"
  | .refDelta => gs "ref-delta"

/-- The content digest of a type-tagged payload. go-git's `ComputeHash` is
SHA-1 over the header `"<type> <size>\x00"` followed by the payload; SHA-1
itself is an external primitive, so the model uses the (injective) hashed
pre-image as the digest value. Everything the claims need — the digest is a
function of `(type, payload)` alone — is preserved. -/
def computeHash (t : ObjType) (content : GoStr) : GoStr :=
  t.toGoStr ++ ' ' :: (toString content.length).data ++ '\x00' :: content

/-- The object key fan-out `objects/<hash[0:2]>/<hash[2:]>`. -/
def objectFanKey (hash : GoStr) : GoStr :=
  gs "objects/" ++ hash.take 2 ++ '/' :: hash.drop 2

/-- Errors surfaced by the storer model. -/
inductive StorerErr
  | invalidType      -- `plumbing.ErrInvalidType`
  | objectNotFound   -- `plumbing.ErrObjectNotFound`
  | refNotFound      -- `plumbing.ErrReferenceNotFound`
  | refChanged       -- `fmt.Errorf("reference has changed")`
  | refTypeMismatch  -- `fmt.Errorf("reference type mismatch")`
  | parseFailure     -- config `Unmarshal` failure
  deriving DecidableEq, Repr

/-- `S3Storer.SetEncodedObject`: reject delta types, hash the payload, store
it under the fan-out key with `git-type` metadata; returns the hash and the
bucket after the write. -/
def setEncodedObject (repoPath : GoStr) (st : Store) (t : ObjType) (content : GoStr) :
    Except StorerErr (GoStr × Store) :=
  if t = .ofsDelta ∨ t = .refDelta then .error .invalidType
  else
    let hash := computeHash t content
    let key := getObjectKey repoPath (objectFanKey hash)
    .ok (hash, st.put key ⟨content, some t.toGoStr⟩)

/-- `S3Storer.EncodedObject`: fetch the blob at the fan-out key; the stored
`git-type` metadata overrides the caller's type when it names one of the
four object types, otherwise the caller's type is used as fallback. Returns
(type, payload); the object size is the payload length. -/
def encodedObject (repoPath : GoStr) (st : Store) (t : ObjType) (hash : GoStr) :
    Except StorerErr (ObjType × GoStr) :=
  match st.get (getObjectKey repoPath (objectFanKey hash)) with
  | none => .error .objectNotFound
  | some b =>
    let objectType :=
      match b.gitType with
      | some g =>
        if g = gs "commit" then ObjType.commit
        else if g = gs "tree" then ObjType.tree
        else if g = gs "blob" then ObjType.blob
        else if g = gs "tag" then ObjType.tag
        else t
      | none => t
    .ok (objectType, b.content)

/-! ## The S3 storer: references (`s3.go`: `SetReference`, `Reference`,
`CheckAndSetReference`)

go-git's `ReferenceName.IsRemote/IsBranch/IsTag` test the prefixes
`refs/remotes/`, `refs/heads/`, `refs/tags/`; `Short()` strips the matched
namespace (Git reference names cannot contain spaces, on which domain the
scan-based go-git implementation coincides with dropping the prefix). -/

/-- A go-git `plumbing.Reference`: direct (hash) or symbolic (target). The
hash is go-git's `plumbing.Hash`, carried as its 40-hex rendering;
`plumbing.NewHash` is the identity on that domain. -/
inductive RefVal
  | hashRef (name hash : GoStr)
  | symbolicRef (name target : GoStr)
  deriving DecidableEq, Repr

/-- `Reference.Name()`. -/
def RefVal.name : RefVal → GoStr
  | .hashRef n _ => n
  | .symbolicRef n _ => n

/-- The S3 key a reference is written to (`SetReference`/`RemoveReference`
key computation): namespace-classified names re-join their namespace with
the short name, all other names are used as given. -/
def refWriteKey (repoPath n : GoStr) : GoStr :=
  if goStartsWith n (gs "refs/remotes/") then
    getObjectKey repoPath (gs "refs/remotes/" ++ goTrimLeading n (gs "refs/remotes/"))
  else if goStartsWith n (gs "refs/heads/") then
    getObjectKey repoPath (gs "refs/heads/" ++ goTrimLeading n (gs "refs/heads/"))
  else if goStartsWith n (gs "refs/tags/") then
    getObjectKey repoPath (gs "refs/tags/" ++ goTrimLeading n (gs "refs/tags/"))
  else getObjectKey repoPath n

/-- The S3 key `Reference` reads from: same as `refWriteKey` except that in
the fallback branch a leading `/` is stripped from the name first. -/
def refReadKey (repoPath n : GoStr) : GoStr :=
  if goStartsWith n (gs "refs/remotes/") then
    getObjectKey repoPath (gs "refs/remotes/" ++ goTrimLeading n (gs "refs/remotes/"))
  else if goStartsWith n (gs "refs/heads/") then
    getObjectKey repoPath (gs "refs/heads/" ++ goTrimLeading n (gs "refs/heads/"))
  else if goStartsWith n (gs "refs/tags/") then
    getObjectKey repoPath (gs "refs/tags/" ++ goTrimLeading n (gs "refs/tags/"))
  else getObjectKey repoPath (if goStartsWith n (gs "/") then n.drop 1 else n)

/-- `S3Storer.SetReference`: store the hex hash for a direct reference, or
`ref: <target>` for a symbolic one, under the reference's key (no
metadata). -/
def setReference (repoPath : GoStr) (st : Store) (r : RefVal) : Store :=
  let content := match r with
    | .hashRef _ h => h
    | .symbolicRef _ t => gs "ref: " ++ t
  st.put (refWriteKey repoPath r.name) ⟨content, none⟩

/-- `S3Storer.Reference`: fetch the blob, trim whitespace; content starting
with `ref: ` parses as a symbolic reference, anything else as a direct
reference (via `plumbing.NewHash`, the identity on 40-hex strings). -/
def getReference (repoPath : GoStr) (st : Store) (n : GoStr) : Except StorerErr RefVal :=
  match st.get (refReadKey repoPath n) with
  | none => .error .refNotFound
  | some b =>
    let c := goTrimSpace b.content
    if goStartsWith c (gs "ref: ") then .ok (.symbolicRef n (goTrimLeading c (gs "ref: ")))
    else .ok (.hashRef n c)

/-- `S3Storer.CheckAndSetReference`: when `old` is non-nil, read the current
reference (propagating a read failure), compare hashes for two direct
references and targets for two symbolic ones (anything else is a type
mismatch), and fail without writing on disagreement; then — or immediately
when `old` is nil — perform `SetReference(new)`. The returned store is the
bucket after the call. -/
def checkAndSetReference (repoPath : GoStr) (st : Store) (newR : RefVal)
    (old : Option RefVal) : Except StorerErr Store :=
  match old with
  | some o =>
    match getReference repoPath st o.name with
    | .error e => .error e
    | .ok current =>
      match o, current with
      | .hashRef _ oh, .hashRef _ ch =>
        if oh ≠ ch then .error .refChanged
        else .ok (setReference repoPath st newR)
      | .symbolicRef _ ot, .symbolicRef _ ct =>
        if ot ≠ ct then .error .refChanged
        else .ok (setReference repoPath st newR)
      | _, _ => .error .refTypeMismatch
  | none => .ok (setReference repoPath st newR)

/-! ## The S3 storer: configuration (`s3.go`: `Config`) -/

/-- The go-git `config.Config` as far as this model needs it: the fresh
default value `&config.Config{}`, or one produced by `Unmarshal`. -/
inductive RepoConfig
  | defaultConfig
  | parsed (raw : GoStr)
  deriving DecidableEq, Repr

/-- `S3Storer.Config`: a missing `config` key yields the default
configuration with no error; an existing blob is handed to `Unmarshal`
(modelled by the `unmarshal` parameter), whose result — including its
failure — is returned unchanged. -/
def s3Config (repoPath : GoStr) (st : Store)
    (unmarshal : GoStr → Except StorerErr RepoConfig) : Except StorerErr RepoConfig :=
  match st.get (getObjectKey repoPath (gs "config")) with
  | none => .ok .defaultConfig
  | some b => unmarshal b.content

/-! ## HTTP advertisement framing (`pkg/common`: `WriteServiceAdvertisement`) -/

/-- Byte `i` of the Go literal `"0123456789abcdef"`. -/
def hexDigitAt (n : Nat) : Char := (gs "0123456789abcdef").getD n '0'

/-- `common.WriteServiceAdvertisement`, as the byte sequence it writes:
a 4-hex-digit pkt-line header for `4 + len(payload)`, the payload
`# service=<service>\n`, then the flush-pkt `0000`. -/
def writeServiceAdvertisement (service : GoStr) : GoStr :=
  let payload := gs "# service=" ++ service ++ ['\n']
  let n := 4 + payload.length
  let hdr := [hexDigitAt ((n >>> 12) % 16), hexDigitAt ((n >>> 8) % 16),
              hexDigitAt ((n >>> 4) % 16), hexDigitAt (n % 16)]
  hdr ++ payload ++ gs "0000"

/-! ## Shared driver plumbing

The drivers are modelled as pure functions from the outcomes of their
external calls (storage existence, protocol-engine session,
decode/encode results) to the observable response. A protocol-engine
status report or pack response is carried as its encoded byte string. -/

/-- The repository registry as the drivers see it: the set of existing
repositories, by normalized name. -/
abbrev Registry := List GoStr

/-- `common.GetTransportServer` fails with a 404 fiber error iff the
normalized repository name does not exist in the registry. -/
def repoExistsNorm (stg : Registry) (repoPath : GoStr) : Bool :=
  stg.contains (normalizeRepoPath repoPath)

/-- An HTTP response: status code and body. -/
structure HttpResp where
  status : Nat
  body : GoStr
  deriving DecidableEq, Repr

/-- Outcome of an HTTP handler; `panicked` marks the nil-pointer
dereference that `report.Encode` performs when the engine returned no
report. -/
inductive HttpResult
  | resp (r : HttpResp)
  | panicked
  deriving DecidableEq, Repr

/-! ## HTTP Git controller (`internal/api/controller/git_controller.go`) -/

/-- `GitController.InfoRefs`: reject services other than
`git-upload-pack`/`git-receive-pack` with 400; an empty extracted path is
404; any `GetTransportServer` failure — in particular a missing
repository — becomes 500 `failed to get transport server`; session or
advertisement failures become 500; otherwise the body is the framed
announcement followed by the engine payload `adv`. -/
def infoRefs (stg : Registry) (service repoPath : GoStr)
    (sessionErr advErr : Option GoStr) (adv : GoStr) : HttpResp :=
  if service ≠ gs "git-upload-pack" ∧ service ≠ gs "git-receive-pack" then
    ⟨400, gs "invalid service parameter"⟩
  else if repoPath = [] then ⟨404, []⟩
  else if !(repoExistsNorm stg repoPath) then ⟨500, gs "failed to get transport server"⟩
  else
    match sessionErr with
    | some e => ⟨500, e⟩
    | none =>
      match advErr with
      | some e => ⟨500, e⟩
      | none => ⟨200, writeServiceAdvertisement service ++ adv⟩

/-- `GitController.HandleReceivePack`: empty path is 404; a missing
repository returns the fiber 404 from `GetTransportServer`; session
failure is 500, decode failure 400. When `ReceivePack` returns an error
the report is still encoded into the 200 body and the error dropped
(dereferencing a nil report); on success the report is encoded, a failing
encode giving 500. -/
def handleReceivePackHTTP (stg : Registry) (repoPath : GoStr)
    (sessionErr decodeErr : Option GoStr)
    (engineReport : Option GoStr) (engineErr : Option GoStr)
    (encodeErr : Option GoStr) : HttpResult :=
  if repoPath = [] then .resp ⟨404, []⟩
  else if !(repoExistsNorm stg repoPath) then .resp ⟨404, gs "repository not found"⟩
  else
    match sessionErr with
    | some e => .resp ⟨500, e⟩
    | none =>
      match decodeErr with
      | some e => .resp ⟨400, e⟩
      | none =>
        match engineErr, engineReport with
        | some _, some r => .resp ⟨200, r⟩
        | some _, none => .panicked
        | none, some r =>
          match encodeErr with
          | some e => .resp ⟨500, e⟩
          | none => .resp ⟨200, r⟩
        | none, none => .panicked

/-! ## Legacy gliderlabs SSH handler (`internal/server/ssh.go`, `SSHConfig`) -/

/-- What one SSH session emits: writes to the session stream and writes to
the error stream. -/
inductive SshEv
  | chanOut (s : GoStr)
  | errOut (s : GoStr)
  deriving DecidableEq, Repr

/-- A finished session: its emitted events and the status passed to
`s.Exit`. -/
structure SshOut where
  events : List SshEv
  exitCode : Nat
  deriving DecidableEq, Repr

/-- The repository phase of `SSHConfig.handleSSHSession` (after command and
path parsing): check existence, create the repository when the service is
`git-receive-pack` and it is missing (failing the session if creation
fails), and fail the session when it is still missing. Returns the registry
after the phase and whether the session proceeds to the service handler. -/
inductive SessionPhase
  | proceed (stg : Registry)
  | failed (stg : Registry) (msg : GoStr)
  deriving DecidableEq, Repr

/-- `SSHConfig.handleSSHSession`, lines deciding existence/creation. -/
def sshSessionRepoPhase (stg : Registry) (service repoPath : GoStr)
    (createErr : Option GoStr) : SessionPhase :=
  let present := stg.contains repoPath
  if !present ∧ service = gs "git-receive-pack" then
    match createErr with
    | some e => .failed stg (gs "Failed to create repository: " ++ e ++ gs "\n")
    | none => .proceed (stg ++ [repoPath])
  else if !present then .failed stg (gs "Repository not found\n")
  else .proceed stg

/-- `SSHConfig.handleUploadPack`: after the advertisement, a decode failure
equal to the literal `pkt-line 1: missing \x27want \x27 prefix` is logged
only, any other decode failure additionally writes a diagnostic to the
error stream — and in both cases the session exits 0 (the `s.Exit(0)` sits
after the if/else). Later engine or encode failures exit 1. -/
def sshHandleUploadPack (sessionErr advErr advEncodeErr : Option GoStr)
    (adv : GoStr) (decodeErr : Option GoStr) (upErr upEncodeErr : Option GoStr)
    (resp : GoStr) : SshOut :=
  match sessionErr with
  | some e => ⟨[.errOut (gs "Upload pack session error: " ++ e ++ gs "\n")], 1⟩
  | none =>
  match advErr with
  | some e => ⟨[.errOut (gs "Advertised references error: " ++ e ++ gs "\n")], 1⟩
  | none =>
  match advEncodeErr with
  | some e => ⟨[.errOut (gs "Failed to send references: " ++ e ++ gs "\n")], 1⟩
  | none =>
  match decodeErr with
  | some msg =>
    if msg = gs "pkt-line 1: missing \x27want \x27 prefix" then ⟨[.chanOut adv], 0⟩
    else ⟨[.chanOut adv, .errOut (gs "Request decode error: " ++ msg ++ gs "\n")], 0⟩
  | none =>
  match upErr with
  | some e => ⟨[.chanOut adv, .errOut (gs "Upload pack error: " ++ e ++ gs "\n")], 1⟩
  | none =>
  match upEncodeErr with
  | some e => ⟨[.chanOut adv, .errOut (gs "Response encode error: " ++ e ++ gs "\n")], 1⟩
  | none => ⟨[.chanOut adv, .chanOut resp], 0⟩

/-- `SSHConfig.handleReceivePack`: on an engine error the report, when
present, is still encoded to the session stream before `s.Exit(1)`; with no
report the error text goes to the error stream instead. -/
def sshHandleReceivePack (sessionErr advErr advEncodeErr : Option GoStr)
    (adv : GoStr) (decodeErr : Option GoStr)
    (engineReport : Option GoStr) (engineErr : Option GoStr)
    (reportEncodeErr : Option GoStr) : SshOut :=
  match sessionErr with
  | some e => ⟨[.errOut (gs "Receive pack session error: " ++ e ++ gs "\n")], 1⟩
  | none =>
  match advErr with
  | some e => ⟨[.errOut (gs "Advertised references error: " ++ e ++ gs "\n")], 1⟩
  | none =>
  match advEncodeErr with
  | some e => ⟨[.errOut (gs "Failed to send references: " ++ e ++ gs "\n")], 1⟩
  | none =>
  match decodeErr with
  | some e => ⟨[.chanOut adv, .errOut (gs "Request decode error: " ++ e ++ gs "\n")], 1⟩
  | none =>
  match engineErr with
  | some e =>
    match engineReport with
    | some r => ⟨[.chanOut adv, .chanOut r], 1⟩
    | none => ⟨[.chanOut adv, .errOut (gs "Receive pack error: " ++ e ++ gs "\n")], 1⟩
  | none =>
  match engineReport with
  | some r =>
    match reportEncodeErr with
    | some e => ⟨[.chanOut adv, .errOut (gs "Report encode error: " ++ e ++ gs "\n")], 1⟩
    | none => ⟨[.chanOut adv, .chanOut r], 0⟩
  | none => ⟨[.chanOut adv], 0⟩

/-! ## Active custom SSH server (`internal/server/git_ssh_server.go`) -/

/-- Events on the raw SSH channel of the custom Git SSH server. -/
inductive ChanEv
  | dataOut (s : GoStr)
  | sendExitStatus (code : Nat)
  | closeWrite
  | sleepMs (ms : Nat)
  | close
  deriving DecidableEq, Repr

/-- `GitSSHServer.handleUploadPack`: no repository auto-creation — a
missing repository surfaces as the `GetTransportServer` error. After an
empty advertisement the handler returns success without decoding. A decode
failure whose text contains `missing \x27want\x27 prefix` or `EOF` is a
success; any other failure is returned as the error. Result: channel
writes and the returned error. -/
def gitSSHHandleUploadPack (stg : Registry) (repoPath : GoStr)
    (sessionErr advErr advEncodeErr : Option GoStr) (adv : GoStr) (advEmpty : Bool)
    (decodeErr : Option GoStr) (upErr upEncodeErr : Option GoStr) (resp : GoStr) :
    List ChanEv × Option GoStr :=
  if !(repoExistsNorm stg repoPath) then ([], some (gs "repository not found"))
  else
  match sessionErr with
  | some e => ([], some e)
  | none =>
  match advErr with
  | some e => ([], some e)
  | none =>
  match advEncodeErr with
  | some e => ([], some e)
  | none =>
  if advEmpty then ([.dataOut adv], none)
  else
  match decodeErr with
  | some msg =>
    if goContains msg (gs "missing \x27want\x27 prefix") || goContains msg (gs "EOF")
    then ([.dataOut adv], none)
    else ([.dataOut adv], some msg)
  | none =>
  match upErr with
  | some e => ([.dataOut adv], some e)
  | none =>
  match upEncodeErr with
  | some e => ([.dataOut adv], some e)
  | none => ([.dataOut adv, .dataOut resp], none)

/-- `GitSSHServer.handleReceivePack`: no repository auto-creation; when
`ReceivePack` returns an error the function returns it at once — the
status report is never encoded on this path; on success the report (when
present) is flushed and encoded, encode failures being swallowed. -/
def gitSSHHandleReceivePack (stg : Registry) (repoPath : GoStr)
    (sessionErr advErr advEncodeErr : Option GoStr) (adv : GoStr)
    (decodeErr : Option GoStr) (engineReport : Option GoStr) (engineErr : Option GoStr) :
    List ChanEv × Option GoStr :=
  if !(repoExistsNorm stg repoPath) then ([], some (gs "repository not found"))
  else
  match sessionErr with
  | some e => ([], some e)
  | none =>
  match advErr with
  | some e => ([], some e)
  | none =>
  match advEncodeErr with
  | some e => ([], some e)
  | none =>
  match decodeErr with
  | some e => ([.dataOut adv], some e)
  | none =>
  match engineErr with
  | some e => ([.dataOut adv], some e)
  | none =>
  match engineReport with
  | some r => ([.dataOut adv, .dataOut r], none)
  | none => ([.dataOut adv], none)

/-- `GitSSHServer.sendExitStatusAndClose`: with status 0, close only the
write half and pause 200 ms (no exit-status request, no full close); with a
non-zero status, send the exit-status request, close the write half, pause
100 ms, then close the channel. -/
def sendExitStatusAndClose (status : Nat) : List ChanEv :=
  if status = 0 then [.closeWrite, .sleepMs 200]
  else [.sendExitStatus status, .closeWrite, .sleepMs 100, .close]

/-- `GitSSHServer.handleExecRequest`: a handler error maps to exit code 1,
success to 0. -/
def execExitCode (res : Option GoStr) : Nat := if res.isSome then 1 else 0

/-- Channel teardown for one exec request: `sendExitStatusAndClose`
followed by the deferred `channel.Close()` of `handleChannel`. -/
def channelTermination (exitCode : Nat) : List ChanEv :=
  sendExitStatusAndClose exitCode ++ [.close]

/-- Full channel trace of one exec request on the custom Git SSH server:
the handler writes, then the termination sequence. -/
def execChannelTrace (writes : List ChanEv) (res : Option GoStr) : List ChanEv :=
  writes ++ channelTermination (execExitCode res)

/-- Is the event an exit-status request? -/
def isExitStatusEv : ChanEv → Bool
  | .sendExitStatus _ => true
  | _ => false

/-- No exit-status request occurs strictly after a full close of the
channel. -/
def exitStatusNeverAfterClose : List ChanEv → Bool
  | [] => true
  | .close :: rest => rest.all (fun e => !(isExitStatusEv e))
  | _ :: rest => exitStatusNeverAfterClose rest

/-- The stored rendering of the reference value reads back unchanged: a
direct reference hash has no surrounding whitespace and no `ref: `
prefix (true of every 40-hex digest), and a symbolic target introduces no
surrounding whitespace. -/
def refContentOk : RefVal → Prop
  | .hashRef _ h => goTrimSpace h = h ∧ goStartsWith h (gs "ref: ") = false
  | .symbolicRef _ t => goTrimSpace (gs "ref: " ++ t) = gs "ref: " ++ t

/-! ## Store lemmas -/

theorem Store.get_put_self (st : Store) (k : GoStr) (v : Blob) :
    (st.put k v).get k = some v := by
  simp [Store.put, Store.get, List.find?]

theorem Store.put_put_self (st : Store) (k : GoStr) (v : Blob) :
    (st.put k v).put k v = st.put k v := by
  simp [Store.put, List.filter_filter]

/-! ## Claims -/

/-- C3 counterexample: the announcement for `git-upload-pack` is not
`0032# service=git-upload-pack\n0000` — the pkt-line header the code
computes is `001e` (4 + 26 = 30 = 0x1e), not `0032` (= 50). -/
theorem writeServiceAdvertisement_claimed_bytes_wrong :
    writeServiceAdvertisement (gs "git-upload-pack") ≠
      gs "0032# service=git-upload-pack\n0000" := by decide

/-- C3 (amended): for the service `git-upload-pack` the announcement
written before the engine payload is exactly
`001e# service=git-upload-pack\n0000`: a 4-hex-digit length header
counting itself plus the literal line `# service=git-upload-pack\n`,
followed by the literal `0000` terminator, with header value
0x001e = 30 = 4 + 26. -/
theorem writeServiceAdvertisement_upload_pack_bytes :
    writeServiceAdvertisement (gs "git-upload-pack") =
      gs "001e# service=git-upload-pack\n0000" ∧
    4 + (gs "# service=git-upload-pack\n").length = 0x1e := by decide

/-- C9 counterexample: the three spellings do not all map to one storage
location. `NormalizeRepoPath` — applied by every public entry point before
the backend key functions — turns `/demo/` into `/demo/.git` (it only
trims whitespace, not slashes), which the S3 backend keys as
`repositories/demo/.git` and the local backend as `<base>/demo/.git`,
while `demo` resolves to `repositories/demo.git` / `<base>/demo.git`. -/
theorem normalization_slash_spelling_diverges :
    normalizeRepoPath (gs "/demo/") ≠ normalizeRepoPath (gs "demo") ∧
    getRepoKey (normalizeRepoPath (gs "/demo/")) ≠
      getRepoKey (normalizeRepoPath (gs "demo")) ∧
    getFullPath (gs "repos") (normalizeRepoPath (gs "/demo/")) ≠
      getFullPath (gs "repos") (normalizeRepoPath (gs "demo")) := by decide

/-- C9 (amended): the spellings `demo` and `demo.git` resolve to the same
storage location on both backends (normalized name `demo.git`, S3 key
`repositories/demo.git`, local path `<base>/demo.git`), but `/demo/`
normalizes to `/demo/.git` and resolves to `repositories/demo/.git` /
`<base>/demo/.git`, a different location. -/
theorem normalization_suffix_spellings_agree :
    normalizeRepoPath (gs "demo") = gs "demo.git" ∧
    normalizeRepoPath (gs "demo.git") = gs "demo.git" ∧
    getRepoKey (normalizeRepoPath (gs "demo")) = gs "repositories/demo.git" ∧
    getRepoKey (normalizeRepoPath (gs "demo.git")) = gs "repositories/demo.git" ∧
    getFullPath (gs "repos") (normalizeRepoPath (gs "demo")) = gs "repos/demo.git" ∧
    getFullPath (gs "repos") (normalizeRepoPath (gs "demo.git")) = gs "repos/demo.git" ∧
    normalizeRepoPath (gs "/demo/") = gs "/demo/.git" ∧
    getRepoKey (normalizeRepoPath (gs "/demo/")) = gs "repositories/demo/.git" ∧
    getFullPath (gs "repos") (normalizeRepoPath (gs "/demo/")) = gs "repos/demo/.git" := by
  decide

/-- A list is a prefix of itself extended by anything. -/
theorem isPrefixOf_append (p t : GoStr) : goStartsWith (p ++ t) p = true := by
  unfold goStartsWith
  induction p with
  | nil => simp [List.isPrefixOf]
  | cons c cs ih => simp [List.isPrefixOf, ih]

/-- Dropping a present leading pattern recovers the remainder. -/
theorem goTrimLeading_append (p t : GoStr) : goTrimLeading (p ++ t) p = t := by
  unfold goTrimLeading
  rw [isPrefixOf_append]
  simp [List.drop_left]

/-- For names without a leading slash — every name go-git hands the storer,
`HEAD` and the `refs/...` namespaces included — the key `SetReference`
writes to equals the key `Reference` reads from. -/
theorem refWriteKey_eq_readKey (repoPath n : GoStr)
    (h : goStartsWith n (gs "/") = false) :
    refWriteKey repoPath n = refReadKey repoPath n := by
  unfold refWriteKey refReadKey
  simp [h]

/-- Read-after-write for references on the S3 storer. -/
theorem getReference_after_setReference (repoPath : GoStr) (st : Store) (B : RefVal)
    (hn : goStartsWith B.name (gs "/") = false) (hc : refContentOk B) :
    getReference repoPath (setReference repoPath st B) B.name = .ok B := by
  cases B with
  | hashRef n h =>
    obtain ⟨htr, hpf⟩ := hc
    unfold getReference setReference
    rw [← refWriteKey_eq_readKey repoPath _ hn]
    simp only [RefVal.name] at hn ⊢
    rw [Store.get_put_self]
    simp [htr, hpf]
  | symbolicRef n t =>
    unfold getReference setReference
    rw [← refWriteKey_eq_readKey repoPath _ hn]
    simp only [RefVal.name] at hn ⊢
    rw [Store.get_put_self]
    simp only [refContentOk] at hc
    simp [hc, isPrefixOf_append, goTrimLeading_append]

/-- C1 (amended): `CheckAndSetReference` on the S3 backend behaves as
compare-and-set whenever `expectedOld` is present — succeeding and writing
`new` when the current value equals `expectedOld` (hash compare for two
direct references, target compare for two symbolic ones), failing with the
reference-changed error on value disagreement and with the type-mismatch
error on differing kinds, in both cases without writing — and the written
reference reads back as written; but when `expectedOld` is nil the check
is skipped entirely and the call succeeds and overwrites whether or not
the reference currently exists. -/
theorem checkAndSetReference_cas_semantics (repoPath : GoStr) :
    (∀ (st : Store) (A B : RefVal),
        getReference repoPath st A.name = .ok A →
        checkAndSetReference repoPath st B (some A) =
          .ok (setReference repoPath st B)) ∧
    (∀ (st : Store) (B : RefVal) (n oh ch : GoStr),
        getReference repoPath st n = .ok (.hashRef n ch) → oh ≠ ch →
        checkAndSetReference repoPath st B (some (.hashRef n oh)) =
          .error .refChanged) ∧
    (∀ (st : Store) (B : RefVal) (n ot ct : GoStr),
        getReference repoPath st n = .ok (.symbolicRef n ct) → ot ≠ ct →
        checkAndSetReference repoPath st B (some (.symbolicRef n ot)) =
          .error .refChanged) ∧
    (∀ (st : Store) (B : RefVal) (n oh ct : GoStr),
        getReference repoPath st n = .ok (.symbolicRef n ct) →
        checkAndSetReference repoPath st B (some (.hashRef n oh)) =
          .error .refTypeMismatch) ∧
    (∀ (st : Store) (B : RefVal) (n ot ch : GoStr),
        getReference repoPath st n = .ok (.hashRef n ch) →
        checkAndSetReference repoPath st B (some (.symbolicRef n ot)) =
          .error .refTypeMismatch) ∧
    (∀ (st : Store) (B : RefVal),
        checkAndSetReference repoPath st B none = .ok (setReference repoPath st B)) ∧
    (∀ (st : Store) (B : RefVal),
        goStartsWith B.name (gs "/") = false → refContentOk B →
        getReference repoPath (setReference repoPath st B) B.name = .ok B) := by
  refine ⟨?_, ?_, ?_, ?_, ?_, ?_, ?_⟩
  · intro st A B hcur
    cases A <;> simp [checkAndSetReference, RefVal.name] at hcur ⊢ <;> simp [hcur]
  · intro st B n oh ch hcur hne
    simp [checkAndSetReference, RefVal.name, hcur, hne]
  · intro st B n ot ct hcur hne
    simp [checkAndSetReference, RefVal.name, hcur, hne]
  · intro st B n oh ct hcur
    simp [checkAndSetReference, RefVal.name, hcur]
  · intro st B n ot ch hcur
    simp [checkAndSetReference, RefVal.name, hcur]
  · intro st B
    simp [checkAndSetReference]
  · intro st B hn hc
    exact getReference_after_setReference repoPath st B hn hc

/-- C1 counterexample: with `expectedOld` nil the call does not require
the reference to be absent — on a bucket where `refs/heads/main` already
exists, `CheckAndSetReference(new, nil)` succeeds and overwrites it. -/
theorem checkAndSetReference_nil_old_overwrites_existing :
    getReference (gs "repositories/demo.git")
        (setReference (gs "repositories/demo.git") []
          (.hashRef (gs "refs/heads/main")
            (gs "aaaaaaaaaaaaaaaaaaaaaaaaaaaaaaaaaaaaaaaa")))
        (gs "refs/heads/main") =
      .ok (.hashRef (gs "refs/heads/main")
            (gs "aaaaaaaaaaaaaaaaaaaaaaaaaaaaaaaaaaaaaaaa")) ∧
    checkAndSetReference (gs "repositories/demo.git")
        (setReference (gs "repositories/demo.git") []
          (.hashRef (gs "refs/heads/main")
            (gs "aaaaaaaaaaaaaaaaaaaaaaaaaaaaaaaaaaaaaaaa")))
        (.hashRef (gs "refs/heads/main")
          (gs "bbbbbbbbbbbbbbbbbbbbbbbbbbbbbbbbbbbbbbbb")) none =
      .ok (setReference (gs "repositories/demo.git")
        (setReference (gs "repositories/demo.git") []
          (.hashRef (gs "refs/heads/main")
            (gs "aaaaaaaaaaaaaaaaaaaaaaaaaaaaaaaaaaaaaaaa")))
        (.hashRef (gs "refs/heads/main")
          (gs "bbbbbbbbbbbbbbbbbbbbbbbbbbbbbbbbbbbbbbbb"))) := by
  constructor
  · decide
  · rfl

/-- C1 witness: the compare-and-set semantics at concrete values — a
reference holding hash `aaa…` is swapped to `bbb…` when `expectedOld`
matches, a stale `expectedOld` is rejected with the reference-changed
error, and the written reference reads back. -/
theorem checkAndSetReference_cas_semantics_witness :
    checkAndSetReference (gs "repositories/demo.git")
        (setReference (gs "repositories/demo.git") []
          (.hashRef (gs "refs/heads/main")
            (gs "aaaaaaaaaaaaaaaaaaaaaaaaaaaaaaaaaaaaaaaa")))
        (.hashRef (gs "refs/heads/main")
          (gs "bbbbbbbbbbbbbbbbbbbbbbbbbbbbbbbbbbbbbbbb"))
        (some (.hashRef (gs "refs/heads/main")
          (gs "aaaaaaaaaaaaaaaaaaaaaaaaaaaaaaaaaaaaaaaa"))) =
      .ok (setReference (gs "repositories/demo.git")
        (setReference (gs "repositories/demo.git") []
          (.hashRef (gs "refs/heads/main")
            (gs "aaaaaaaaaaaaaaaaaaaaaaaaaaaaaaaaaaaaaaaa")))
        (.hashRef (gs "refs/heads/main")
          (gs "bbbbbbbbbbbbbbbbbbbbbbbbbbbbbbbbbbbbbbbb"))) ∧
    checkAndSetReference (gs "repositories/demo.git")
        (setReference (gs "repositories/demo.git") []
          (.hashRef (gs "refs/heads/main")
            (gs "bbbbbbbbbbbbbbbbbbbbbbbbbbbbbbbbbbbbbbbb")))
        (.hashRef (gs "refs/heads/main")
          (gs "cccccccccccccccccccccccccccccccccccccccc"))
        (some (.hashRef (gs "refs/heads/main")
          (gs "aaaaaaaaaaaaaaaaaaaaaaaaaaaaaaaaaaaaaaaa"))) =
      .error .refChanged ∧
    getReference (gs "repositories/demo.git")
        (setReference (gs "repositories/demo.git") []
          (.hashRef (gs "refs/heads/main")
            (gs "bbbbbbbbbbbbbbbbbbbbbbbbbbbbbbbbbbbbbbbb")))
        (gs "refs/heads/main") =
      .ok (.hashRef (gs "refs/heads/main")
        (gs "bbbbbbbbbbbbbbbbbbbbbbbbbbbbbbbbbbbbbbbb")) := by
  have h := checkAndSetReference_cas_semantics (gs "repositories/demo.git")
  refine ⟨h.1 _ (.hashRef (gs "refs/heads/main")
      (gs "aaaaaaaaaaaaaaaaaaaaaaaaaaaaaaaaaaaaaaaa")) _ (by decide),
    h.2.1 _ (.hashRef (gs "refs/heads/main")
        (gs "cccccccccccccccccccccccccccccccccccccccc"))
      (gs "refs/heads/main") (gs "aaaaaaaaaaaaaaaaaaaaaaaaaaaaaaaaaaaaaaaa")
      (gs "bbbbbbbbbbbbbbbbbbbbbbbbbbbbbbbbbbbbbbbb") (by decide) (by decide), ?_⟩
  exact h.2.2.2.2.2.2 [] (.hashRef (gs "refs/heads/main")
      (gs "bbbbbbbbbbbbbbbbbbbbbbbbbbbbbbbbbbbbbbbb"))
    (by decide) (by constructor <;> decide)

/-- Helper for C2: the `git-type` metadata written by `SetEncodedObject`
parses back to the same object type for the four storable types, whatever
fallback type the caller passed. -/
theorem gitType_metadata_roundtrip :
    ∀ t t₀ : ObjType, t = .blob ∨ t = .tree ∨ t = .commit ∨ t = .tag →
      (if t.toGoStr = gs "commit" then ObjType.commit
       else if t.toGoStr = gs "tree" then ObjType.tree
       else if t.toGoStr = gs "blob" then ObjType.blob
       else if t.toGoStr = gs "tag" then ObjType.tag
       else t₀) = t := by decide

/-- C2: on the S3 backend, `SetEncodedObject` of a non-delta type `t` and
payload `p` succeeds with the hash determined by `(t, p)` alone, writing
the payload (with `git-type` metadata) under the fan-out key of that hash;
reading that hash back with `EncodedObject` returns type `t` and payload
`p` whatever fallback type the reader passes; and storing `(t, p)` a
second time returns the same hash and leaves the bucket unchanged (the
same key is rewritten with the same blob). -/
theorem setEncodedObject_content_addressed (repoPath : GoStr) (st : Store)
    (t : ObjType) (p : GoStr)
    (ht : t = .blob ∨ t = .tree ∨ t = .commit ∨ t = .tag) :
    setEncodedObject repoPath st t p =
      .ok (computeHash t p,
        st.put (getObjectKey repoPath (objectFanKey (computeHash t p)))
          ⟨p, some t.toGoStr⟩) ∧
    (∀ t₀ : ObjType,
      encodedObject repoPath
        (st.put (getObjectKey repoPath (objectFanKey (computeHash t p)))
          ⟨p, some t.toGoStr⟩) t₀ (computeHash t p) = .ok (t, p)) ∧
    setEncodedObject repoPath
      (st.put (getObjectKey repoPath (objectFanKey (computeHash t p)))
        ⟨p, some t.toGoStr⟩) t p =
      .ok (computeHash t p,
        st.put (getObjectKey repoPath (objectFanKey (computeHash t p)))
          ⟨p, some t.toGoStr⟩) := by
  have hnd : ¬(t = ObjType.ofsDelta ∨ t = ObjType.refDelta) := by
    rcases ht with h | h | h | h <;> subst h <;> simp
  refine ⟨?_, ?_, ?_⟩
  · simp [setEncodedObject, hnd]
  · intro t₀
    simp only [encodedObject, Store.get_put_self]
    rw [gitType_metadata_roundtrip t t₀ ht]
  · simp [setEncodedObject, hnd, Store.put_put_self]

/-- C2 witness: storing a blob `hello` in an empty bucket yields its
content hash and a bucket from which any-typed reads return the blob. -/
theorem setEncodedObject_content_addressed_witness :
    setEncodedObject (gs "repositories/demo.git") [] ObjType.blob (gs "hello") =
      .ok (computeHash ObjType.blob (gs "hello"),
        Store.put [] (getObjectKey (gs "repositories/demo.git")
            (objectFanKey (computeHash ObjType.blob (gs "hello"))))
          ⟨gs "hello", some (ObjType.toGoStr ObjType.blob)⟩) ∧
    encodedObject (gs "repositories/demo.git")
      (Store.put [] (getObjectKey (gs "repositories/demo.git")
          (objectFanKey (computeHash ObjType.blob (gs "hello"))))
        ⟨gs "hello", some (ObjType.toGoStr ObjType.blob)⟩)
      ObjType.commit (computeHash ObjType.blob (gs "hello")) =
      .ok (ObjType.blob, gs "hello") := by
  have h := setEncodedObject_content_addressed (gs "repositories/demo.git") []
    ObjType.blob (gs "hello") (Or.inl rfl)
  exact ⟨h.1, h.2.1 ObjType.commit⟩

/-- C10: `S3Storer.Config` never fails with not-found — when the `config`
key is absent from the blob store it returns the fresh default
configuration with no error, and any error it does return comes from
`Unmarshal` applied to the content of an existing config blob. -/
theorem s3Config_missing_key_defaults (repoPath : GoStr)
    (unmarshal : GoStr → Except StorerErr RepoConfig) :
    (∀ st : Store, st.get (getObjectKey repoPath (gs "config")) = none →
      s3Config repoPath st unmarshal = .ok .defaultConfig) ∧
    (∀ (st : Store) (e : StorerErr), s3Config repoPath st unmarshal = .error e →
      ∃ b, st.get (getObjectKey repoPath (gs "config")) = some b ∧
        unmarshal b.content = .error e) := by
  constructor
  · intro st habs
    simp [s3Config, habs]
  · intro st e herr
    revert herr
    unfold s3Config
    cases hb : st.get (getObjectKey repoPath (gs "config")) with
    | none => intro h; cases h
    | some b => intro h; exact ⟨b, rfl, h⟩

/-- C10 witness: on the empty bucket of a fresh repository the config read
succeeds with the default configuration. -/
theorem s3Config_missing_key_defaults_witness :
    s3Config (gs "repositories/demo.git") [] (fun _ => .error .parseFailure) =
      .ok .defaultConfig :=
  (s3Config_missing_key_defaults (gs "repositories/demo.git")
    (fun _ => .error .parseFailure)).1 [] (by decide)

/-- C4 counterexample: on the active custom SSH server
(`GitSSHServer.handleReceivePack`, the driver wired in by `GitSSHConfig`),
a receive-pack exchange in which the engine returns both a status report
and an error does not relay the report: the channel sees only the
advertisement, the error is returned, and the exec wrapper maps it to exit
status 1. -/
theorem gitSSH_receivePack_drops_report_on_error :
    gitSSHHandleReceivePack [gs "demo.git"] (gs "demo.git") none none none
        (gs "ADV") none (some (gs "REPORT")) (some (gs "hook declined")) =
      ([.dataOut (gs "ADV")], some (gs "hook declined")) ∧
    ChanEv.dataOut (gs "REPORT") ∉ [ChanEv.dataOut (gs "ADV")] ∧
    execExitCode (some (gs "hook declined")) = 1 := by decide

/-- C4 (amended): when the engine returns both a status report and an
error, the HTTP driver writes the report body instead of an error
response, and the legacy gliderlabs SSH handler writes the report to the
session stream before exiting with status 1; the active custom SSH server
(`GitSSHServer`) however returns the error without encoding the report, so
on that driver only exit status 1 reaches the client. -/
theorem receivePack_status_report_relay (stg : Registry)
    (p adv r e : GoStr) (encErr : Option GoStr)
    (hp : p ≠ []) (hex : repoExistsNorm stg p = true) :
    handleReceivePackHTTP stg p none none (some r) (some e) encErr =
      .resp ⟨200, r⟩ ∧
    sshHandleReceivePack none none none adv none (some r) (some e) none =
      ⟨[.chanOut adv, .chanOut r], 1⟩ ∧
    gitSSHHandleReceivePack stg p none none none adv none (some r) (some e) =
      ([.dataOut adv], some e) ∧
    execExitCode (some e) = 1 := by
  refine ⟨?_, rfl, ?_, rfl⟩
  · simp [handleReceivePackHTTP, hp, hex]
  · simp [gitSSHHandleReceivePack, hex]

/-- C4 witness: the relay facts at concrete inputs. -/
theorem receivePack_status_report_relay_witness :
    handleReceivePackHTTP [gs "demo.git"] (gs "demo.git") none none
        (some (gs "REPORT")) (some (gs "hook declined")) none =
      .resp ⟨200, gs "REPORT"⟩ ∧
    sshHandleReceivePack none none none (gs "ADV") none (some (gs "REPORT"))
        (some (gs "hook declined")) none =
      ⟨[.chanOut (gs "ADV"), .chanOut (gs "REPORT")], 1⟩ ∧
    gitSSHHandleReceivePack [gs "demo.git"] (gs "demo.git") none none none
        (gs "ADV") none (some (gs "REPORT")) (some (gs "hook declined")) =
      ([.dataOut (gs "ADV")], some (gs "hook declined")) ∧
    execExitCode (some (gs "hook declined")) = 1 :=
  receivePack_status_report_relay [gs "demo.git"] (gs "demo.git") (gs "ADV")
    (gs "REPORT") (gs "hook declined") none (by decide) (by decide)

/-- C5 counterexample: a reference-advertisement request for a repository
that does not exist is answered with HTTP 500 `failed to get transport
server` — the 404 produced inside `GetTransportServer` is swallowed by
`InfoRefs` — so a missing repository is reported as an internal server
error, not as not-found. -/
theorem infoRefs_missing_repo_yields_500 :
    infoRefs [] (gs "git-upload-pack") (gs "nonexistent-repo.git")
        none none [] =
      ⟨500, gs "failed to get transport server"⟩ ∧
    (infoRefs [] (gs "git-upload-pack") (gs "nonexistent-repo.git")
        none none []).status ≠ 404 := by decide

/-- C5 (amended): a service parameter other than `git-upload-pack` or
`git-receive-pack` fails with HTTP 400 `invalid service parameter`; a
missing repository fails with HTTP 500 `failed to get transport server`
(the behavior the integration test `nonexistent_repository` asserts); only
an empty extracted repository path yields 404. -/
theorem infoRefs_service_and_missing_repo_mapping (stg : Registry) :
    (∀ (svc p : GoStr) (sErr aErr : Option GoStr) (adv : GoStr),
        svc ≠ gs "git-upload-pack" → svc ≠ gs "git-receive-pack" →
        infoRefs stg svc p sErr aErr adv =
          ⟨400, gs "invalid service parameter"⟩) ∧
    (∀ (svc p : GoStr) (sErr aErr : Option GoStr) (adv : GoStr),
        (svc = gs "git-upload-pack" ∨ svc = gs "git-receive-pack") →
        p ≠ [] → repoExistsNorm stg p = false →
        infoRefs stg svc p sErr aErr adv =
          ⟨500, gs "failed to get transport server"⟩) ∧
    (∀ (svc : GoStr) (sErr aErr : Option GoStr) (adv : GoStr),
        (svc = gs "git-upload-pack" ∨ svc = gs "git-receive-pack") →
        infoRefs stg svc [] sErr aErr adv = ⟨404, []⟩) := by
  refine ⟨?_, ?_, ?_⟩
  · intro svc p sErr aErr adv h1 h2
    simp [infoRefs, h1, h2]
  · intro svc p sErr aErr adv hsvc hp hmiss
    rcases hsvc with h | h <;> subst h <;> simp [infoRefs, hp, hmiss]
  · intro svc sErr aErr adv hsvc
    rcases hsvc with h | h <;> subst h <;> simp [infoRefs]

/-- C5 witness: the three mappings at concrete inputs. -/
theorem infoRefs_service_and_missing_repo_mapping_witness :
    infoRefs [] (gs "git-frobnicate") (gs "demo.git") none none [] =
      ⟨400, gs "invalid service parameter"⟩ ∧
    infoRefs [] (gs "git-upload-pack") (gs "demo.git") none none [] =
      ⟨500, gs "failed to get transport server"⟩ ∧
    infoRefs [] (gs "git-upload-pack") [] none none [] = ⟨404, []⟩ := by
  have h := infoRefs_service_and_missing_repo_mapping []
  exact ⟨h.1 _ _ none none [] (by decide) (by decide),
    h.2.1 _ _ none none [] (Or.inl rfl) (by decide) (by decide),
    h.2.2 _ none none [] (Or.inl rfl)⟩

/-- C6 counterexample: on the legacy gliderlabs handler
(`SSHConfig.handleUploadPack`), a decode failure that is NOT of the
empty-repository shape still ends the session with `s.Exit(0)` — the
diagnostic goes to the error stream but the exit status reports success,
because the `s.Exit(0)` sits after the if/else on the error text. -/
theorem legacy_ssh_decode_failure_exits_zero :
    sshHandleUploadPack none none none (gs "ADV")
        (some (gs "malformed request")) none none [] =
      ⟨[.chanOut (gs "ADV"),
        .errOut (gs "Request decode error: malformed request\n")], 0⟩ ∧
    (sshHandleUploadPack none none none (gs "ADV")
        (some (gs "malformed request")) none none []).exitCode = 0 := by decide

/-- C6 (amended): on the active custom SSH server a decode failure whose
text contains `missing 'want' prefix` or `EOF` (the empty-repository
shape) completes the session successfully (no error, exit status 0) and
any other decode failure is returned as an error (exit status 1); on the
legacy gliderlabs handler the exact empty-repository error text is
silently accepted while every other decode failure writes a diagnostic to
the error stream — but both paths exit with status 0 there. -/
theorem uploadPack_decode_failure_handling (stg : Registry) (p : GoStr)
    (hex : repoExistsNorm stg p = true) :
    (∀ (adv resp : GoStr),
        sshHandleUploadPack none none none adv
          (some (gs "pkt-line 1: missing \x27want \x27 prefix")) none none resp =
          ⟨[.chanOut adv], 0⟩) ∧
    (∀ (adv resp msg : GoStr),
        msg ≠ gs "pkt-line 1: missing \x27want \x27 prefix" →
        sshHandleUploadPack none none none adv (some msg) none none resp =
          ⟨[.chanOut adv,
            .errOut (gs "Request decode error: " ++ msg ++ gs "\n")], 0⟩) ∧
    (∀ (adv resp msg : GoStr),
        (goContains msg (gs "missing \x27want\x27 prefix") = true ∨
          goContains msg (gs "EOF") = true) →
        gitSSHHandleUploadPack stg p none none none adv false (some msg)
            none none resp = ([.dataOut adv], none) ∧
          execExitCode none = 0) ∧
    (∀ (adv resp msg : GoStr),
        goContains msg (gs "missing \x27want\x27 prefix") = false →
        goContains msg (gs "EOF") = false →
        gitSSHHandleUploadPack stg p none none none adv false (some msg)
            none none resp = ([.dataOut adv], some msg) ∧
          execExitCode (some msg) = 1) := by
  refine ⟨?_, ?_, ?_, ?_⟩
  · intro adv resp
    simp [sshHandleUploadPack]
  · intro adv resp msg hne
    simp [sshHandleUploadPack, hne]
  · intro adv resp msg hpat
    rcases hpat with h | h <;>
      simp [gitSSHHandleUploadPack, hex, h, execExitCode]
  · intro adv resp msg h1 h2
    simp [gitSSHHandleUploadPack, hex, h1, h2, execExitCode]

/-- C6 witness: the decode-failure handling at concrete inputs. -/
theorem uploadPack_decode_failure_handling_witness :
    sshHandleUploadPack none none none (gs "ADV")
        (some (gs "pkt-line 1: missing \x27want \x27 prefix")) none none [] =
      ⟨[.chanOut (gs "ADV")], 0⟩ ∧
    gitSSHHandleUploadPack [gs "demo.git"] (gs "demo.git") none none none
        (gs "ADV") false (some (gs "unexpected EOF")) none none [] =
      ([.dataOut (gs "ADV")], none) ∧
    gitSSHHandleUploadPack [gs "demo.git"] (gs "demo.git") none none none
        (gs "ADV") false (some (gs "bad pack header")) none none [] =
      ([.dataOut (gs "ADV")], some (gs "bad pack header")) := by
  have h := uploadPack_decode_failure_handling [gs "demo.git"] (gs "demo.git")
    (by decide)
  exact ⟨h.1 (gs "ADV") [],
    (h.2.2.1 (gs "ADV") [] (gs "unexpected EOF") (Or.inr (by decide))).1,
    (h.2.2.2 (gs "ADV") [] (gs "bad pack header") (by decide) (by decide)).1⟩

/-- C7 counterexample: on the active custom SSH server, a
`git-receive-pack` exec for a repository that does not exist does not
create it — `GetTransportServer` fails, the handler returns the error and
the session exits with status 1; `GitSSHServer` contains no call to
`CreateRepository` at all, so the registry is untouched. -/
theorem gitSSH_push_missing_repo_not_created :
    gitSSHHandleReceivePack [] (gs "demo.git") none none none (gs "ADV")
        none none none =
      ([], some (gs "repository not found")) ∧
    execExitCode (some (gs "repository not found")) = 1 ∧
    ([] : Registry).contains (gs "demo.git") = false := by decide

/-- C7 (amended): on the legacy gliderlabs handler
(`SSHConfig.handleSSHSession`), an exec naming a missing repository
creates it and proceeds when the service is `git-receive-pack` (failing
the session only if creation fails) and fails the session without
creating anything when the service is `git-upload-pack`; on the active
custom SSH server (`GitSSHServer`) no auto-creation exists — for both
services an exec naming a missing repository fails with exit status 1 and
the repository is not created. -/
theorem ssh_missing_repo_service_policy (stg : Registry) (p : GoStr)
    (hc : stg.contains p = false) (hen : repoExistsNorm stg p = false) :
    sshSessionRepoPhase stg (gs "git-receive-pack") p none =
      .proceed (stg ++ [p]) ∧
    (∀ e : GoStr, sshSessionRepoPhase stg (gs "git-receive-pack") p (some e) =
      .failed stg (gs "Failed to create repository: " ++ e ++ gs "\n")) ∧
    sshSessionRepoPhase stg (gs "git-upload-pack") p none =
      .failed stg (gs "Repository not found\n") ∧
    (∀ (adv : GoStr) (dec rep err : Option GoStr),
      gitSSHHandleReceivePack stg p none none none adv dec rep err =
        ([], some (gs "repository not found"))) ∧
    (∀ (adv resp : GoStr) (advEmpty : Bool) (dec : Option GoStr),
      gitSSHHandleUploadPack stg p none none none adv advEmpty dec
          none none resp =
        ([], some (gs "repository not found"))) := by
  have hmem : p ∉ stg := by simpa using hc
  refine ⟨?_, ?_, ?_, ?_, ?_⟩
  · simp [sshSessionRepoPhase, hmem]
  · intro e
    simp [sshSessionRepoPhase, hmem]
  · simp [sshSessionRepoPhase, hmem,
      show ¬(gs "git-upload-pack" = gs "git-receive-pack") from by decide]
  · intro adv dec rep err
    simp [gitSSHHandleReceivePack, hen]
  · intro adv resp advEmpty dec
    simp [gitSSHHandleUploadPack, hen]

/-- C7 witness: the policy at concrete inputs, from the empty registry. -/
theorem ssh_missing_repo_service_policy_witness :
    sshSessionRepoPhase [] (gs "git-receive-pack") (gs "demo.git") none =
      .proceed [gs "demo.git"] ∧
    sshSessionRepoPhase [] (gs "git-upload-pack") (gs "demo.git") none =
      .failed [] (gs "Repository not found\n") ∧
    gitSSHHandleReceivePack [] (gs "demo.git") none none none (gs "ADV")
        none none none =
      ([], some (gs "repository not found")) := by
  have h := ssh_missing_repo_service_policy [] (gs "demo.git")
    (by decide) (by decide)
  exact ⟨h.1, h.2.2.1, h.2.2.2.1 (gs "ADV") none none none⟩

/-- Helper for C8: a run of channel data writes before the termination
sequence does not affect the exit-status/close ordering check. -/
theorem exitStatusNeverAfterClose_dataOut (ws : List GoStr) (tr : List ChanEv) :
    exitStatusNeverAfterClose (ws.map ChanEv.dataOut ++ tr) =
      exitStatusNeverAfterClose tr := by
  induction ws with
  | nil => rfl
  | cons w ws ih => simpa [exitStatusNeverAfterClose] using ih

/-- C8: for every exec session of the custom Git SSH server, whose
handlers only write data to the channel, termination is ordered as
claimed: on success (exit code 0) no exit-status request is ever sent,
only the write half is closed, and the channel closes afterwards (the
deferred close of `handleChannel`); on failure the exit-status request
carrying the code is sent first, then the write half closes, then after a
pause the channel is fully closed; and in every trace no exit-status
request occurs after a full close. -/
theorem ssh_channel_termination_ordering :
    (∀ ws : List GoStr,
        execChannelTrace (ws.map ChanEv.dataOut) none =
          ws.map ChanEv.dataOut ++ [.closeWrite, .sleepMs 200, .close]) ∧
    (∀ (ws : List GoStr) (e : GoStr),
        execChannelTrace (ws.map ChanEv.dataOut) (some e) =
          ws.map ChanEv.dataOut ++
            [.sendExitStatus 1, .closeWrite, .sleepMs 100, .close, .close]) ∧
    (channelTermination 0).all (fun ev => !(isExitStatusEv ev)) = true ∧
    (∀ (ws : List GoStr) (res : Option GoStr),
        exitStatusNeverAfterClose
          (execChannelTrace (ws.map ChanEv.dataOut) res) = true) := by
  refine ⟨?_, ?_, by decide, ?_⟩
  · intro ws
    simp [execChannelTrace, channelTermination, sendExitStatusAndClose,
      execExitCode]
  · intro ws e
    simp [execChannelTrace, channelTermination, sendExitStatusAndClose,
      execExitCode]
  · intro ws res
    rw [execChannelTrace, exitStatusNeverAfterClose_dataOut]
    cases res <;>
      simp [channelTermination, sendExitStatusAndClose, execExitCode,
        exitStatusNeverAfterClose, isExitStatusEv]

end OGit
